import Mathlib

/-!
Verification development for the construct-health analysis pipeline
(`streamlit_app.py`).  Text is modelled as `List Char`; the regex searches of
the script are embedded as executable functions over character lists, and the
pipeline stages (`sectionize`, `detect_constructs`, `detect_measures`,
`extract_numbers`, `threshold_comments`, `jingle_jangle`, report assembly)
are translated from the source.
-/

namespace ConstructHealth

/-- Characters of a string literal; used to state concrete inputs. -/
def chars (s : String) : List Char := s.toList

/-- Word character in the sense of the regex class backslash-w
(ASCII letters, digits, underscore; unicode letters beyond ASCII are not
needed by any claim). -/
def wordChar (c : Char) : Bool := c.isAlpha || c.isDigit || c == '_'

/-- Is the character at index `i` a word character (out of range counts as
non-word, as at the ends of a Python string)? -/
def wordAt (t : List Char) (i : Nat) : Bool :=
  match t[i]? with
  | some c => wordChar c
  | none => false

/-- The regex anchor for a word boundary holds between indices `i-1` and `i`
iff exactly one side is a word character. -/
def boundaryAt (t : List Char) (i : Nat) : Bool :=
  (decide (i ≠ 0) && wordAt t (i - 1)) != wordAt t i

/-- Case-insensitive character comparison (re.I). -/
def ciChar (a b : Char) : Bool := a.toLower == b.toLower

/-- Does the phrase `p` occur at index `i` of `t`, case-insensitively? -/
def ciMatchAt (t : List Char) (i : Nat) : List Char → Bool
  | [] => true
  | c :: cs =>
    match t[i]? with
    | some d => ciChar d c && ciMatchAt t (i + 1) cs
    | none => false

/-- Source: `re.search(rf'\b{re.escape(p)}\b', t, re.I)` as a boolean: the phrase
occurs somewhere in `t`, case-insensitively, flanked by word boundaries. -/
def searchPhrase (t p : List Char) : Bool :=
  (List.range (t.length + 1)).any (fun i =>
    ciMatchAt t i p && boundaryAt t i && boundaryAt t (i + p.length))

/-- Python `str.strip()`: drop leading and trailing whitespace. -/
def pyStrip (t : List Char) : List Char :=
  ((t.dropWhile Char.isWhitespace).reverse.dropWhile Char.isWhitespace).reverse

/-- Split on newline characters, keeping empty pieces. -/
def splitOnNl : List Char → List (List Char)
  | [] => [[]]
  | c :: rest =>
    match splitOnNl rest, c == '\n' with
    | r, true => [] :: r
    | [], false => [[c]]
    | h :: tl, false => (c :: h) :: tl

/-- Python `str.splitlines()` for newline-separated text: like splitting on
the newline character, except that a trailing newline produces no final empty
line and the empty string has no lines. -/
def pySplitlines (t : List Char) : List (List Char) :=
  match t with
  | [] => []
  | _ =>
    let ps := splitOnNl t
    if t.getLast? = some '\n' then ps.dropLast else ps

/-- Python `"\n".join`. -/
def joinNl (ls : List (List Char)) : List Char := List.intercalate ['\n'] ls

/-- Python `" ".join`. -/
def joinSp (ls : List (List Char)) : List Char := List.intercalate [' '] ls

/-- The candidate texts the section-heading regex
`\b(Abstract|Introduction|Background|Theory|Method|Methods|Measures?|Participants?|Procedure|Results?|Discussion|Conclusion)s?\b`
can consume at one position, in backtracking priority order (alternatives
left to right; each optional `s` greedy, the trailing `s?` of the whole
pattern included). -/
def headCandidates : List (List Char) :=
  [chars "abstracts", chars "abstract",
   chars "introductions", chars "introduction",
   chars "backgrounds", chars "background",
   chars "theorys", chars "theory",
   chars "methods", chars "method",
   chars "methodss", chars "methods",
   chars "measuress", chars "measures", chars "measure",
   chars "participantss", chars "participants", chars "participant",
   chars "procedures", chars "procedure",
   chars "resultss", chars "results", chars "result",
   chars "discussions", chars "discussion",
   chars "conclusions", chars "conclusion"]

/-- Length of the heading match anchored at index `i`, if any. -/
def headMatchAt (t : List Char) (i : Nat) : Option Nat :=
  if boundaryAt t i then
    headCandidates.findSome? (fun c =>
      if ciMatchAt t i c && boundaryAt t (i + c.length) then some c.length
      else none)
  else none

/-- Source: `SECTION_HEAD.search(t)`: the text consumed by the leftmost match
(`group(0)`, a slice of `t` in its original case), if any. -/
def sectionHeadSearch (t : List Char) : Option (List Char) :=
  (List.range (t.length + 1)).findSome? (fun i =>
    (headMatchAt t i).map (fun L => (t.drop i).take L))

/-- Python `str.title()` restricted to a single word of letters: first
character uppercased, the rest lowercased. -/
def titleWord : List Char → List Char
  | [] => []
  | c :: cs => c.toUpper :: cs.map Char.toLower

/-- Source: `dict.setdefault(k, [])` on an insertion-ordered association list. -/
def setdefault (secs : List (List Char × List (List Char))) (k : List Char) :
    List (List Char × List (List Char)) :=
  if secs.any (fun p => p.1 == k) then secs else secs ++ [(k, [])]

/-- Source: `secs[k].append(line)` on an insertion-ordered association list. -/
def appendLine (secs : List (List Char × List (List Char))) (k line : List Char) :
    List (List Char × List (List Char)) :=
  secs.map (fun p => if p.1 == k then (p.1, p.2 ++ [line]) else p)

/-- The line loop of `sectionize`: on a heading match the (title-cased)
matched text becomes the current section; every line, heading lines
included, is appended to the current section. -/
def sectionizeAux :
    List (List Char) → List Char → List (List Char × List (List Char)) →
    List (List Char × List (List Char))
  | [], _, secs => secs
  | line :: rest, current, secs =>
    match sectionHeadSearch (pyStrip line) with
    | some s =>
      sectionizeAux rest (titleWord s)
        (appendLine (setdefault secs (titleWord s)) (titleWord s) line)
    | none => sectionizeAux rest current (appendLine secs current line)

/-- Source: `sectionize(text)`: a mapping (insertion-ordered association list) from
section name to newline-joined, stripped content, seeded with the
"Full Text" sentinel. -/
def sectionize (t : List Char) : List (List Char × List Char) :=
  (sectionizeAux (pySplitlines t) (chars "Full Text") [(chars "Full Text", [])]).map
    (fun p => (p.1, pyStrip (joinNl p.2)))

/-- Source: `secs.get(k, "")`. -/
def getSec (secs : List (List Char × List Char)) (k : List Char) : List Char :=
  match secs.find? (fun p => p.1 == k) with
  | some p => p.2
  | none => []

/-- The focus text assembled by the app from selected sections. -/
def focusOf (t : List Char) : List Char :=
  let secs := sectionize t
  joinSp [getSec secs (chars "Abstract"),
          getSec secs (chars "Introduction"),
          getSec secs (chars "Theory"),
          getSec secs (chars "Method") ++ [' '] ++ getSec secs (chars "Measures"),
          getSec secs (chars "Results"),
          getSec secs (chars "Discussion")]

/-- The focus text of a document with no detected sections: six spaces. -/
def spaces6 : List Char := [' ', ' ', ' ', ' ', ' ', ' ']

/-! ### A small backtracking regex engine

Sufficient for the numeric-statistic patterns of the script: character
classes, concatenation, ordered alternation, greedy `?`, and greedy `*`
over a character class.  `runC` returns every way the pattern can consume a
prefix, as (consumed, remainder) pairs in backtracking priority order, so
taking the head reproduces the match Python's `re` engine produces. -/

inductive RE where
  | eps : RE
  | ch (p : Char → Bool) : RE
  | seq (a b : RE) : RE
  | alt (a b : RE) : RE
  | opt (a : RE) : RE
  | star (p : Char → Bool) : RE

/-- All ways a greedy star over a character class can consume a prefix,
longest first. -/
def starRunC (p : Char → Bool) : List Char → List (List Char × List Char)
  | [] => [([], [])]
  | c :: s =>
    if p c then
      ((starRunC p s).map (fun r => (c :: r.1, r.2))) ++ [([], c :: s)]
    else [([], c :: s)]

/-- All (consumed, remainder) splits of the input accepted by the pattern,
in backtracking priority order. -/
def RE.runC : RE → List Char → List (List Char × List Char)
  | .eps, s => [([], s)]
  | .ch _, [] => []
  | .ch p, c :: s => if p c then [([c], s)] else []
  | .seq a b, s =>
    (a.runC s).flatMap (fun r1 => (b.runC r1.2).map (fun r2 => (r1.1 ++ r2.1, r2.2)))
  | .alt a b, s => a.runC s ++ b.runC s
  | .opt a, s => a.runC s ++ [([], s)]
  | .star p, s => starRunC p s

/-- Concatenation of a list of patterns. -/
def seqs (rs : List RE) : RE := rs.foldr RE.seq RE.eps

/-- Case-insensitive literal character. -/
def litC (c : Char) : RE := RE.ch (fun d => ciChar d c)

/-- Case-insensitive literal word. -/
def lit (s : List Char) : RE := seqs (s.map litC)

/-- Case-sensitive single character. -/
def chC (c : Char) : RE := RE.ch (fun d => d == c)

/-- The regex class backslash-s (ASCII whitespace). -/
def wsP (c : Char) : Bool :=
  c == ' ' || c == '\t' || c == '\n' || c == '\r' ||
  c == Char.ofNat 11 || c == Char.ofNat 12

/-- The regex class backslash-d. -/
def digitP (c : Char) : Bool := c.isDigit

/-- The regex class `[^a-zA-Z]`. -/
def notLetterP (c : Char) : Bool :=
  !((decide ('a' ≤ c) && decide (c ≤ 'z')) || (decide ('A' ≤ c) && decide (c ≤ 'Z')))

/-- Source: `\s*`. -/
def WS : RE := RE.star wsP

/-- The optional operator `(?:=|:)?` of the reliability patterns. -/
def OPS : RE := RE.opt (RE.alt (chC '=') (chC ':'))

/-- The mandatory operator `(?:=|:)` of the fit-index patterns. -/
def OPM : RE := RE.alt (chC '=') (chC ':')

/-- The numeric alternative `[0]\.\d{2,}`: a leading `0.` plus at least two
digits, greedy. -/
def NUM0 : RE :=
  seqs [chC '0', chC '.', RE.ch digitP, RE.ch digitP, RE.star digitP]

/-- The numeric group `([0]\.\d{2,}|[1](?:\.0+)?)` of the reliability
patterns. -/
def NUM01 : RE :=
  RE.alt NUM0 (RE.seq (chC '1') (RE.opt (seqs [chC '.', chC '0', RE.star (fun c => c == '0')])))

/-- Source: `RE_ALPHA` up to its capturing group:
`(?:cronbach[^a-zA-Z]*alpha|alpha)\s*(?:=|:)?\s*`. -/
def ALPHA_pre : RE :=
  seqs [RE.alt (seqs [lit (chars "cronbach"), RE.star notLetterP, lit (chars "alpha")])
              (lit (chars "alpha")),
        WS, OPS, WS]

/-- Source: `RE_OMEGA` up to its capturing group: `(?:omega|Ï‰)\s*(?:=|:)?\s*`. -/
def OMEGA_pre : RE :=
  seqs [RE.alt (lit (chars "omega")) (lit (chars "Ï‰")), WS, OPS, WS]

/-- Source: `RE_TRT` up to its capturing group: `(?:test[- ]?retest|ICC)\s*(?:=|:)?\s*`. -/
def TRT_pre : RE :=
  seqs [RE.alt (seqs [lit (chars "test"), RE.opt (RE.ch (fun c => c == '-' || c == ' ')),
                      lit (chars "retest")])
              (lit (chars "ICC")),
        WS, OPS, WS]

/-- Source: `RE_CFI` up to its capturing group: `CFI\s*(?:=|:)\s*`. -/
def CFI_pre : RE := seqs [lit (chars "CFI"), WS, OPM, WS]

/-- Source: `RE_TLI` up to its capturing group. -/
def TLI_pre : RE := seqs [lit (chars "TLI"), WS, OPM, WS]

/-- Source: `RE_RMSEA` up to its capturing group. -/
def RMSEA_pre : RE := seqs [lit (chars "RMSEA"), WS, OPM, WS]

/-- Source: `RE_SRMR` up to its capturing group. -/
def SRMR_pre : RE := seqs [lit (chars "SRMR"), WS, OPM, WS]

/-- The match Python's engine produces at the start of `s` for a pattern of
shape `pre(num)` (capturing group last): the first full match in
backtracking priority order, as (captured text, remaining input). -/
def matchCap (pre num : RE) (s : List Char) : Option (List Char × List Char) :=
  ((pre.runC s).flatMap (fun r1 => (num.runC r1.2).map (fun r2 => (r2.1, r2.2)))).head?

/-- Source: `re.findall` for a pattern `pre(num)`: scan left to right, take
non-overlapping matches, collect the captured group. -/
def findallAux (pre num : RE) : Nat → List Char → List (List Char)
  | 0, _ => []
  | fuel + 1, s =>
    match matchCap pre num s with
    | some r => r.1 :: findallAux pre num fuel r.2
    | none =>
      match s with
      | [] => []
      | _ :: s2 => findallAux pre num fuel s2

/-- Source: `re.findall` over the whole input. -/
def findall (pre num : RE) (s : List Char) : List (List Char) :=
  findallAux pre num (s.length + 1) s

/-- Numeric value of a digit string. -/
def digitsVal (s : List Char) : Nat :=
  s.foldl (fun n c => 10 * n + (c.toNat - 48)) 0

/-- Python `float()` on a captured decimal such as `0.85`, `1` or `1.0`,
read exactly as a rational. -/
def parseDec (s : List Char) : ℚ :=
  let intPart := s.takeWhile (fun c => c != '.')
  let fracPart := (s.dropWhile (fun c => c != '.')).drop 1
  (digitsVal intPart : ℚ) + (digitsVal fracPart : ℚ) / (10 : ℚ) ^ fracPart.length

/-- Length of the whitespace run starting at index `i`. -/
def wsRunLen (t : List Char) (i : Nat) : Nat := ((t.drop i).takeWhile wsP).length

/-- The four invariance qualifiers of `RE_INVAR`. -/
def invarWords : List (List Char) :=
  [chars "configural", chars "metric", chars "scalar", chars "strict"]

/-- Source: `RE_INVAR.search` as a boolean:
`\b(configural|metric|scalar|strict)\s+invariance\b|\bmeasurement invariance\b|\bDIF\b`. -/
def invarSearch (t : List Char) : Bool :=
  ((List.range (t.length + 1)).any (fun i =>
    boundaryAt t i && invarWords.any (fun w =>
      ciMatchAt t i w &&
      (decide (1 ≤ wsRunLen t (i + w.length)) &&
       ciMatchAt t (i + w.length + wsRunLen t (i + w.length)) (chars "invariance") &&
       boundaryAt t (i + w.length + wsRunLen t (i + w.length) + (chars "invariance").length)))))
  || searchPhrase t (chars "measurement invariance")
  || searchPhrase t (chars "DIF")

/-- The `NumericSignal` record produced by `extract_numbers`. -/
structure NumericSignal where
  alpha : List ℚ
  omega : List ℚ
  test_retest_or_ICC : List ℚ
  CFI : List ℚ
  TLI : List ℚ
  RMSEA : List ℚ
  SRMR : List ℚ
  invariance_signal : Bool
deriving DecidableEq

/-- Source: `extract_numbers(blob)`: every statistic regex is applied with
`findall`, all captured values are parsed as floats in order of appearance,
and invariance is a presence flag. -/
def extract_numbers (blob : List Char) : NumericSignal where
  alpha := (findall ALPHA_pre NUM01 blob).map parseDec
  omega := (findall OMEGA_pre NUM01 blob).map parseDec
  test_retest_or_ICC := (findall TRT_pre NUM01 blob).map parseDec
  CFI := (findall CFI_pre NUM0 blob).map parseDec
  TLI := (findall TLI_pre NUM0 blob).map parseDec
  RMSEA := (findall RMSEA_pre NUM0 blob).map parseDec
  SRMR := (findall SRMR_pre NUM0 blob).map parseDec
  invariance_signal := invarSearch blob

/-- The claim's reading of the statistic patterns, for comparison with
`extract_numbers`: the label/operator part is optional for EVERY statistic
and the numeric part is `0.` plus at least two digits, or `1` optionally
followed by `.0+`, for every statistic. -/
def extract_numbers_claimed (blob : List Char) : NumericSignal where
  alpha := (findall ALPHA_pre NUM01 blob).map parseDec
  omega := (findall OMEGA_pre NUM01 blob).map parseDec
  test_retest_or_ICC := (findall TRT_pre NUM01 blob).map parseDec
  CFI := (findall (seqs [lit (chars "CFI"), WS, OPS, WS]) NUM01 blob).map parseDec
  TLI := (findall (seqs [lit (chars "TLI"), WS, OPS, WS]) NUM01 blob).map parseDec
  RMSEA := (findall (seqs [lit (chars "RMSEA"), WS, OPS, WS]) NUM01 blob).map parseDec
  SRMR := (findall (seqs [lit (chars "SRMR"), WS, OPS, WS]) NUM01 blob).map parseDec
  invariance_signal := invarSearch blob

/-! ### Knowledge base and entity recognition -/

/-- A construct entry of `kb_constructs.yaml`: label lists used by
`detect_constructs`. -/
structure ConstructNode where
  canonical_labels : List (List Char)
  near_neighbors : List (List Char)
deriving DecidableEq

/-- A measure entry of `kb_measures.yaml`: aliases, method type, targets. -/
structure MeasureNode where
  aliases : List (List Char)
  type : String
  targets : List String
deriving DecidableEq

/-- One detected measure. -/
structure DetectedMeasure where
  measure : String
  «alias» : List Char
  type : String
  targets : List String
deriving DecidableEq

/-- Total order on character lists mirroring Python string comparison
(lexicographic by code point). -/
def strLt : List Char → List Char → Bool
  | [], [] => false
  | [], _ :: _ => true
  | _ :: _, [] => false
  | a :: as, b :: bs =>
    if a.val < b.val then true else if b.val < a.val then false else strLt as bs

/-- Insert into a sorted duplicate-free list, skipping an element already
present. -/
def insSorted (x : List Char) : List (List Char) → List (List Char)
  | [] => [x]
  | y :: ys =>
    if x = y then y :: ys
    else if strLt x y then x :: y :: ys
    else y :: insSorted x ys

/-- Python `sorted(set(l))` for strings. -/
def sortedDedup (l : List (List Char)) : List (List Char) := l.foldr insSorted []

/-- Python `sorted(set(l))` for measure ids. -/
def sortedDedupStr (l : List String) : List String :=
  ((l.map (fun s => s.toList)).foldr insSorted []).map (fun cs => String.mk cs)

/-- Source: `detect_constructs(text)`: for each construct, collect the labels (from
`canonical_labels` plus `near_neighbors`) that occur whole-word
case-insensitively; constructs with at least one hit are kept, in KB order,
with their matched labels as a sorted set. -/
def detect_constructs (kb : List (String × ConstructNode)) (t : List Char) :
    List (String × List (List Char)) :=
  kb.filterMap (fun p =>
    let ms := (p.2.canonical_labels ++ p.2.near_neighbors).filter
      (fun lbl => searchPhrase t lbl)
    if ms = [] then none else some (p.1, sortedDedup ms))

/-- Source: `detect_measures(text)`: for each measure, aliases are tested in listed
order; the first whole-word match yields one `DetectedMeasure` and ends the
alias loop for that measure. -/
def detect_measures (kb : List (String × MeasureNode)) (t : List Char) :
    List DetectedMeasure :=
  kb.filterMap (fun p =>
    (p.2.aliases.find? (fun a => searchPhrase t a)).map
      (fun a => ⟨p.1, a, p.2.type, p.2.targets⟩))

/-- Source: `buckets.setdefault(k, []).append(v)` on an insertion-ordered
association list. -/
def bucketAppend (bs : List (String × List String)) (k v : String) :
    List (String × List String) :=
  if bs.any (fun p => p.1 == k) then
    bs.map (fun p => if p.1 == k then (p.1, p.2 ++ [v]) else p)
  else bs ++ [(k, [v])]

/-- Source: `map_measures_to_components(found)`: accumulate measure ids per target,
then sort and deduplicate each bucket. -/
def map_measures_to_components (found : List DetectedMeasure) :
    List (String × List String) :=
  (found.foldl (fun bs item =>
      item.targets.foldl (fun bs2 tgt => bucketAppend bs2 tgt item.measure) bs)
    ([] : List (String × List String))).map (fun p => (p.1, sortedDedupStr p.2))

/-! ### Threshold comments -/

/-- The seven numeric statistics. -/
inductive StatName where
  | alpha | omega | trt | cfi | tli | rmsea | srmr
deriving DecidableEq

/-- One line of `threshold_comments`.  A statistic line carries the literal
label text, the value list and the chosen verdict text; the script's
f-string interpolation of the value list into the line is presentation and
is performed at serialization. -/
inductive Comment where
  | stat (s : StatName) (label : String) (vals : List ℚ) (verdict : String)
  | invarianceNote (text : String)
deriving DecidableEq

/-- Source: `any_ge(vals, thr)`: some value is ≥ the threshold (False on an empty
list). -/
def any_ge (vals : List ℚ) (thr : ℚ) : Bool := vals.any (fun v => decide (thr ≤ v))

/-- Source: `any_le(vals, thr)`: some value is ≤ the threshold (False on an empty
list). -/
def any_le (vals : List ℚ) (thr : ℚ) : Bool := vals.any (fun v => decide (v ≤ thr))

/-- Source: `threshold_comments(nums)`: one comment per statistic with at least one
value, in the fixed order alpha, omega, test-retest/ICC, CFI, TLI, RMSEA,
SRMR, then the invariance advisory. -/
def threshold_comments (nums : NumericSignal) : List Comment :=
  (if nums.alpha ≠ [] then
    [Comment.stat StatName.alpha "Î± values: " nums.alpha
      (if any_ge nums.alpha (70/100) then "OK (â‰¥ .70)" else "low")] else []) ++
  (if nums.omega ≠ [] then
    [Comment.stat StatName.omega "Ï‰ values: " nums.omega
      (if any_ge nums.omega (70/100) then "OK (â‰¥ .70)" else "low")] else []) ++
  (if nums.test_retest_or_ICC ≠ [] then
    [Comment.stat StatName.trt "Testâ€“retest/ICC: " nums.test_retest_or_ICC
      (if any_ge nums.test_retest_or_ICC (70/100) then "OK (â‰¥ .70 typical)" else "low")] else []) ++
  (if nums.CFI ≠ [] then
    [Comment.stat StatName.cfi "CFI: " nums.CFI
      (if any_ge nums.CFI (90/100) then "OK (â‰¥ .95 good, â‰¥ .90 acceptable)" else "poor")] else []) ++
  (if nums.TLI ≠ [] then
    [Comment.stat StatName.tli "TLI: " nums.TLI
      (if any_ge nums.TLI (90/100) then "OK (â‰¥ .95/.90)" else "poor")] else []) ++
  (if nums.RMSEA ≠ [] then
    [Comment.stat StatName.rmsea "RMSEA: " nums.RMSEA
      (if any_le nums.RMSEA (8/100) then "OK (â‰¤ .06 good, â‰¤ .08 acceptable)" else "high")] else []) ++
  (if nums.SRMR ≠ [] then
    [Comment.stat StatName.srmr "SRMR: " nums.SRMR
      (if any_le nums.SRMR (8/100) then "OK (â‰¤ .08 typical)" else "high")] else []) ++
  (if nums.invariance_signal then
    [Comment.invarianceNote "Measurement invariance mentioned (check configural/metric/scalar)."] else [])

/-- The value list a `NumericSignal` holds for a statistic. -/
def statVals (nums : NumericSignal) : StatName → List ℚ
  | .alpha => nums.alpha
  | .omega => nums.omega
  | .trt => nums.test_retest_or_ICC
  | .cfi => nums.CFI
  | .tli => nums.TLI
  | .rmsea => nums.RMSEA
  | .srmr => nums.SRMR

/-- The literal label of a statistic's comment line. -/
def statLabel : StatName → String
  | .alpha => "Î± values: "
  | .omega => "Ï‰ values: "
  | .trt => "Testâ€“retest/ICC: "
  | .cfi => "CFI: "
  | .tli => "TLI: "
  | .rmsea => "RMSEA: "
  | .srmr => "SRMR: "

/-- A statistic's acceptability rule: at least one value clears the
threshold (≥ .70 for the reliability statistics, ≥ .90 for CFI and TLI,
≤ .08 for RMSEA and SRMR). -/
def okCond : StatName → List ℚ → Bool
  | .alpha, v => any_ge v (70/100)
  | .omega, v => any_ge v (70/100)
  | .trt, v => any_ge v (70/100)
  | .cfi, v => any_ge v (90/100)
  | .tli, v => any_ge v (90/100)
  | .rmsea, v => any_le v (8/100)
  | .srmr, v => any_le v (8/100)

/-- The acceptable-verdict text per statistic. -/
def okText : StatName → String
  | .alpha => "OK (â‰¥ .70)"
  | .omega => "OK (â‰¥ .70)"
  | .trt => "OK (â‰¥ .70 typical)"
  | .cfi => "OK (â‰¥ .95 good, â‰¥ .90 acceptable)"
  | .tli => "OK (â‰¥ .95/.90)"
  | .rmsea => "OK (â‰¤ .06 good, â‰¤ .08 acceptable)"
  | .srmr => "OK (â‰¤ .08 typical)"

/-- The failing-verdict text per statistic. -/
def badText : StatName → String
  | .alpha => "low"
  | .omega => "low"
  | .trt => "low"
  | .cfi => "poor"
  | .tli => "poor"
  | .rmsea => "high"
  | .srmr => "high"

/-- Is a comment line about the given statistic? -/
def isAbout (s : StatName) : Comment → Bool
  | Comment.stat s2 _ _ _ => s2 == s
  | Comment.invarianceNote _ => false

/-- The comment lines about a given statistic. -/
def commentsAbout (cs : List Comment) (s : StatName) : List Comment :=
  cs.filter (isAbout s)

/-- The verdict of the first comment line about a statistic, if any. -/
def commentVerdict (cs : List Comment) (s : StatName) : Option String :=
  cs.findSome? (fun c =>
    match c with
    | Comment.stat s2 _ _ v => if s2 = s then some v else none
    | Comment.invarianceNote _ => none)

/-- Position of a comment line in the fixed emission order. -/
def commentIndex : Comment → Nat
  | Comment.stat .alpha _ _ _ => 0
  | Comment.stat .omega _ _ _ => 1
  | Comment.stat .trt _ _ _ => 2
  | Comment.stat .cfi _ _ _ => 3
  | Comment.stat .tli _ _ _ => 4
  | Comment.stat .rmsea _ _ _ => 5
  | Comment.stat .srmr _ _ _ => 6
  | Comment.invarianceNote _ => 7

/-! ### Jingle-jangle and evidence sentences -/

/-- Dict key membership, as in Python `k in constructs_found`. -/
def hasKey (cs : List (String × List (List Char))) (k : String) : Bool :=
  cs.any (fun p => p.1 == k)

/-- The jingle warning string. -/
def jingleStr : String :=
  "Jingle risk: paper labels â€˜self-controlâ€™ but uses Grit-S (grit). Check boundaries."

/-- The jangle warning string. -/
def jangleStr : String :=
  "Jangle risk: both â€˜self-controlâ€™ and â€˜self-regulationâ€™ are used with no explicit differentiation."

/-- The method-mix warning string. -/
def mixStr : String :=
  "Method mix: self-report and behavioral tasks both present â€” mapping to theory should be explicit."

/-- The alternatives of `RE_BOUNDARY`
(`\b(distinct from|differs from|as opposed to|not merely|boundary|scope conditions?)\b`),
the optional `s` expanded. -/
def boundaryPhrases : List (List Char) :=
  [chars "distinct from", chars "differs from", chars "as opposed to",
   chars "not merely", chars "boundary", chars "scope conditions", chars "scope condition"]

/-- Source: `RE_BOUNDARY.search` as a boolean. -/
def reBoundarySearch (t : List Char) : Bool :=
  boundaryPhrases.any (fun p => searchPhrase t p)

/-- Source: `jingle_jangle(text, constructs_found, measures_found)`. -/
def jingle_jangle (t : List Char) (constructs_found : List (String × List (List Char)))
    (measures_found : List DetectedMeasure) : List String :=
  (if hasKey constructs_found "self-control" &&
      measures_found.any (fun m => m.measure == "GritS") then [jingleStr] else []) ++
  (if hasKey constructs_found "self-control" &&
      hasKey constructs_found "self-regulation" &&
      !(reBoundarySearch t) then [jangleStr] else []) ++
  (if measures_found.any (fun m => m.type == "self-report") &&
      measures_found.any (fun m => m.type == "behavioral task") then [mixStr] else [])

/-- The alternatives of `RE_DEF`. -/
def defPhrases : List (List Char) :=
  [chars "is defined as", chars "we define", chars "defined as", chars "refers to"]

/-- Source: `RE_DEF.search` as a boolean. -/
def reDefSearch (t : List Char) : Bool := defPhrases.any (fun p => searchPhrase t p)

/-- The alternatives of `RE_THEORY`, hyphen/space variants expanded. -/
def theoryPhrases : List (List Char) :=
  [chars "model", chars "mechanism",
   chars "dual systems", chars "dual-systems", chars "dualsystems",
   chars "dual system", chars "dual-system", chars "dualsystem",
   chars "process model", chars "expected value of control", chars "valuation"]

/-- Source: `RE_THEORY.search` as a boolean. -/
def reTheorySearch (t : List Char) : Bool := theoryPhrases.any (fun p => searchPhrase t p)

/-- The alternatives of `RE_DESIGN`, variants expanded. -/
def designPhrases : List (List Char) :=
  [chars "randomised", chars "randomized", chars "experiment", chars "intervention",
   chars "longitudinal", chars "cross-sectional", chars "cross sectional",
   chars "pre-post", chars "pre post", chars "RCT"]

/-- Source: `RE_DESIGN.search` as a boolean. -/
def reDesignSearch (t : List Char) : Bool := designPhrases.any (fun p => searchPhrase t p)

/-- The alternatives of `RE_VALIDITY`, variants expanded. -/
def validityPhrases : List (List Char) :=
  [chars "convergent", chars "discriminant", chars "criterion", chars "predictive",
   chars "known-groups", chars "known groups",
   chars "response-process", chars "response process"]

/-- Source: `RE_VALIDITY.search` as a boolean. -/
def reValiditySearch (t : List Char) : Bool := validityPhrases.any (fun p => searchPhrase t p)

/-- Source: `re.sub(r'\s+', ' ', text)`: collapse whitespace runs to single spaces.
The flag records whether the previous character was part of a run. -/
def collapseWsAux : List Char → Bool → List Char
  | [], _ => []
  | c :: rest, prevWs =>
    if wsP c then
      if prevWs then collapseWsAux rest true else ' ' :: collapseWsAux rest true
    else c :: collapseWsAux rest false

/-- Whitespace collapse of the sentence splitter. -/
def collapseWs (t : List Char) : List Char := collapseWsAux t false

/-- The lookahead class `[A-Z\(]` of the sentence splitter. -/
def upperOrParen (c : Char) : Bool :=
  (decide ('A' ≤ c) && decide (c ≤ 'Z')) || c == '('

/-- Does the splitter `SPLIT = (?<=\.)\s+(?=[A-Z\(])|(?<=[!?])\s+` split at
a space with the given previous and next characters (the input having
already been whitespace-collapsed)? -/
def splitHere (prev : Option Char) (next : Option Char) : Bool :=
  (prev == some '.' &&
    (match next with
     | some c => upperOrParen c
     | none => false)) ||
  prev == some '!' || prev == some '?'

/-- Split the collapsed text at the splitter's separator positions. -/
def splitSentAux : List Char → Option Char → List Char → List (List Char)
  | [], _, acc => [acc.reverse]
  | c :: rest, prev, acc =>
    if c == ' ' && splitHere prev rest.head? then
      acc.reverse :: splitSentAux rest (some c) []
    else splitSentAux rest (some c) (c :: acc)

/-- Source: `sentences(text)`: collapse whitespace, split on sentence boundaries,
strip, drop empties. -/
def sentences (t : List Char) : List (List Char) :=
  ((splitSentAux (collapseWs t) none []).map pyStrip).filter (fun s => decide (s ≠ []))

/-- The loop of `find_sents`: collect matching sentences; after each
sentence, stop once `maxn` many are collected. -/
def findSentsAux (p : List Char → Bool) (maxn : Nat) :
    List (List Char) → List (List Char) → List (List Char)
  | [], out => out
  | s :: rest, out =>
    let out2 := if p s then out ++ [s] else out
    if maxn ≤ out2.length then out2 else findSentsAux p maxn rest out2

/-- Source: `find_sents(blob, pattern, maxn)`. -/
def find_sents (blob : List Char) (p : List Char → Bool) (maxn : Nat) :
    List (List Char) :=
  findSentsAux p maxn (sentences blob) []

/-! ### Report assembly -/

/-- The checklist report exported by the app (the keys of the JSON dict in
tab 5). -/
structure Report where
  constructs_detected : List (String × List (List Char))
  measures_detected : List DetectedMeasure
  component_map : List (String × List String)
  definition_sents : List (List Char)
  boundary_sents : List (List Char)
  theory_sents : List (List Char)
  design_sents : List (List Char)
  validity_sents : List (List Char)
  numeric_indices : NumericSignal
  numeric_comments : List Comment
  warnings : List String
deriving DecidableEq

/-- The analysis pipeline run on extracted text: sectionize, build the
focus text, run the detectors and extractors, and assemble the report. -/
def analyze (kbC : List (String × ConstructNode)) (kbM : List (String × MeasureNode))
    (blob : List Char) : Report :=
  let focus := focusOf blob
  { constructs_detected := detect_constructs kbC focus
  , measures_detected := detect_measures kbM focus
  , component_map := map_measures_to_components (detect_measures kbM focus)
  , definition_sents := find_sents focus reDefSearch 5
  , boundary_sents := find_sents focus reBoundarySearch 5
  , theory_sents := find_sents focus reTheorySearch 5
  , design_sents := find_sents focus reDesignSearch 5
  , validity_sents := find_sents focus reValiditySearch 6
  , numeric_indices := extract_numbers focus
  , numeric_comments := threshold_comments (extract_numbers focus)
  , warnings := jingle_jangle focus (detect_constructs kbC focus) (detect_measures kbM focus) }

/-- The report of a document in which nothing is detected. -/
def emptyReport : Report :=
  ⟨[], [], [], [], [], [], [], [], ⟨[], [], [], [], [], [], [], false⟩, [], []⟩

/-- A JSON value, for the export artifact. -/
inductive Json where
  | null : Json
  | bool (b : Bool) : Json
  | num (q : ℚ) : Json
  | str (s : String) : Json
  | arr (xs : List Json) : Json
  | obj (fields : List (String × Json)) : Json

/-- Serialize a character-list string. -/
def Json.ofChars (cs : List Char) : Json := Json.str (String.mk cs)

/-- Serialize a detected measure. -/
def DetectedMeasure.toJson (d : DetectedMeasure) : Json :=
  Json.obj [("measure", Json.str d.measure), ("alias", Json.ofChars d.«alias»),
            ("type", Json.str d.type),
            ("targets", Json.arr (d.targets.map Json.str))]

/-- Serialize the numeric signal. -/
def NumericSignal.toJson (n : NumericSignal) : Json :=
  Json.obj [("alpha", Json.arr (n.alpha.map Json.num)),
            ("omega", Json.arr (n.omega.map Json.num)),
            ("test_retest_or_ICC", Json.arr (n.test_retest_or_ICC.map Json.num)),
            ("CFI", Json.arr (n.CFI.map Json.num)),
            ("TLI", Json.arr (n.TLI.map Json.num)),
            ("RMSEA", Json.arr (n.RMSEA.map Json.num)),
            ("SRMR", Json.arr (n.SRMR.map Json.num)),
            ("invariance_signal", Json.bool n.invariance_signal)]

/-- Serialize a comment line (the script renders each as one string; the
structured form keeps label, values and verdict explicit). -/
def Comment.toJson : Comment → Json
  | Comment.stat _ label vals verdict =>
    Json.obj [("label", Json.str label), ("values", Json.arr (vals.map Json.num)),
              ("verdict", Json.str verdict)]
  | Comment.invarianceNote t => Json.str t

/-- Serialize the report with the keys of the exported JSON dict. -/
def Report.toJson (r : Report) : Json :=
  Json.obj
    [("constructs_detected",
       Json.obj (r.constructs_detected.map (fun p =>
         (p.1, Json.arr (p.2.map Json.ofChars))))),
     ("measures_detected", Json.arr (r.measures_detected.map DetectedMeasure.toJson)),
     ("component_map",
       Json.obj (r.component_map.map (fun p =>
         (p.1, Json.arr (p.2.map Json.str))))),
     ("definition_sents", Json.arr (r.definition_sents.map Json.ofChars)),
     ("boundary_sents", Json.arr (r.boundary_sents.map Json.ofChars)),
     ("theory_sents", Json.arr (r.theory_sents.map Json.ofChars)),
     ("design_sents", Json.arr (r.design_sents.map Json.ofChars)),
     ("validity_sents", Json.arr (r.validity_sents.map Json.ofChars)),
     ("numeric_indices", r.numeric_indices.toJson),
     ("numeric_comments", Json.arr (r.numeric_comments.map Comment.toJson)),
     ("warnings", Json.arr (r.warnings.map Json.str))]

/-- The serialized empty report. -/
def emptyReportJson : Json :=
  Json.obj
    [("constructs_detected", Json.obj []),
     ("measures_detected", Json.arr []),
     ("component_map", Json.obj []),
     ("definition_sents", Json.arr []),
     ("boundary_sents", Json.arr []),
     ("theory_sents", Json.arr []),
     ("design_sents", Json.arr []),
     ("validity_sents", Json.arr []),
     ("numeric_indices",
       Json.obj [("alpha", Json.arr []), ("omega", Json.arr []),
                 ("test_retest_or_ICC", Json.arr []), ("CFI", Json.arr []),
                 ("TLI", Json.arr []), ("RMSEA", Json.arr []),
                 ("SRMR", Json.arr []), ("invariance_signal", Json.bool false)]),
     ("numeric_comments", Json.arr []),
     ("warnings", Json.arr [])]

/-- Operator characters `=` and `:`, mandatory in the fit-index patterns. -/
def opP (c : Char) : Bool := c == '=' || c == ':'

/-- Syntactic witness that every string accepted by a pattern contains a
character satisfying `p`. -/
inductive MustHave (p : Char → Bool) : RE → Prop where
  | ch (q : Char → Bool) (h : ∀ c, q c = true → p c = true) : MustHave p (RE.ch q)
  | seqL (a b : RE) (h : MustHave p a) : MustHave p (RE.seq a b)
  | seqR (a b : RE) (h : MustHave p b) : MustHave p (RE.seq a b)
  | alt (a b : RE) (ha : MustHave p a) (hb : MustHave p b) : MustHave p (RE.alt a b)

/-- A two-measure knowledge base used to instantiate general theorems. -/
def kbMeasWitness : List (String × MeasureNode) :=
  [("BSCS", ⟨[chars "Brief Self-Control Scale", chars "BSCS"], "self-report", ["inhibition"]⟩),
   ("GritS", ⟨[chars "Grit-S"], "self-report", ["perseverance"]⟩)]

/-- A two-construct detection result used to instantiate general theorems. -/
def consFoundWitness : List (String × List (List Char)) :=
  [("self-control", [chars "self-control"]), ("self-regulation", [chars "self-regulation"])]

/-! ### Lemmas: threshold comments -/

theorem filter_ite_singleton (p : Comment → Bool) (c : Prop) [Decidable c] (x : Comment) :
    List.filter p (if c then [x] else []) = if c ∧ p x = true then [x] else [] := by
  split_ifs with h1 h2 <;> simp_all

theorem findSome?_ite_singleton (f : Comment → Option String) (c : Prop) [Decidable c]
    (x : Comment) :
    List.findSome? f (if c then [x] else []) = if c then f x else none := by
  split_ifs <;> cases h : f x <;> simp_all [List.findSome?_cons, h]

/-- The comment lines about a statistic: exactly one when the statistic has
values (label, the values, and the threshold verdict), none otherwise. -/
theorem commentsAbout_threshold (nums : NumericSignal) (s : StatName) :
    commentsAbout (threshold_comments nums) s =
      if statVals nums s = [] then []
      else [Comment.stat s (statLabel s) (statVals nums s)
            (if okCond s (statVals nums s) then okText s else badText s)] := by
  cases s <;>
    · simp only [commentsAbout, threshold_comments, List.filter_append, filter_ite_singleton,
        statVals, statLabel, okCond, okText, badText]
      simp [isAbout, ite_not]

/-- The verdict reported for a statistic. -/
theorem commentVerdict_threshold (nums : NumericSignal) (s : StatName) :
    commentVerdict (threshold_comments nums) s =
      if statVals nums s = [] then none
      else some (if okCond s (statVals nums s) then okText s else badText s) := by
  cases s <;>
    · simp only [commentVerdict, threshold_comments, List.findSome?_append,
        findSome?_ite_singleton, statVals, okCond, okText, badText]
      simp [ite_not]

/-- C2: for every `NumericSignal` and every statistic with at least one
extracted value, the comment emitted by `threshold_comments` carries the
acceptable verdict iff at least one of the statistic's values clears its
threshold (≥ .70 for alpha/omega/test-retest, ≥ .90 for CFI/TLI, ≤ .08 for
RMSEA/SRMR); in particular alpha exactly 0.70 yields the OK verdict and
0.69 yields "low", and RMSEA exactly 0.08 yields the OK verdict and 0.081
yields "high". -/
theorem threshold_comments_any_value_passes :
    (∀ (nums : NumericSignal) (s : StatName), statVals nums s ≠ [] →
        (commentVerdict (threshold_comments nums) s = some (okText s) ↔
          okCond s (statVals nums s) = true)) ∧
    commentVerdict (threshold_comments ⟨[70/100], [], [], [], [], [], [], false⟩)
      StatName.alpha = some "OK (â‰¥ .70)" ∧
    commentVerdict (threshold_comments ⟨[69/100], [], [], [], [], [], [], false⟩)
      StatName.alpha = some "low" ∧
    commentVerdict (threshold_comments ⟨[], [], [], [], [], [8/100], [], false⟩)
      StatName.rmsea = some "OK (â‰¤ .06 good, â‰¤ .08 acceptable)" ∧
    commentVerdict (threshold_comments ⟨[], [], [], [], [], [81/1000], [], false⟩)
      StatName.rmsea = some "high" := by
  have evalCase : ∀ (nums : NumericSignal) (s : StatName),
      commentVerdict (threshold_comments nums) s =
        if statVals nums s = [] then none
        else some (if okCond s (statVals nums s) then okText s else badText s) :=
    commentVerdict_threshold
  refine ⟨?_,
    by rw [evalCase]; norm_num [statVals, okCond, okText, badText, any_ge, any_le,
         List.any_cons, List.any_nil],
    by rw [evalCase]; norm_num [statVals, okCond, okText, badText, any_ge, any_le,
         List.any_cons, List.any_nil],
    by rw [evalCase]; norm_num [statVals, okCond, okText, badText, any_ge, any_le,
         List.any_cons, List.any_nil],
    by rw [evalCase]; norm_num [statVals, okCond, okText, badText, any_ge, any_le,
         List.any_cons, List.any_nil]⟩
  intro nums s h
  rw [commentVerdict_threshold, if_neg h]
  cases hc : okCond s (statVals nums s)
  · have hne : badText s ≠ okText s := by cases s <;> decide
    simp [hne]
  · simp

/-- Witness for C2 at a concrete signal. -/
theorem threshold_comments_any_value_passes_witness :
    commentVerdict (threshold_comments ⟨[3/4], [], [], [], [], [], [], false⟩)
        StatName.alpha = some (okText StatName.alpha) ↔
      okCond StatName.alpha
        (statVals ⟨[3/4], [], [], [], [], [], [], false⟩ StatName.alpha) = true :=
  threshold_comments_any_value_passes.1 ⟨[3/4], [], [], [], [], [], [], false⟩
    StatName.alpha (by decide)

/-- C6: for every numeric signal and statistic, `threshold_comments` emits
exactly one comment line for the statistic when its value list is
non-empty, and none when it is empty. -/
theorem threshold_comments_exactly_one_per_stat (nums : NumericSignal) (s : StatName) :
    (commentsAbout (threshold_comments nums) s).length =
      if statVals nums s = [] then 0 else 1 := by
  rw [commentsAbout_threshold]
  split <;> rfl

/-- C10: the comment lines of `threshold_comments` appear in the fixed
order alpha, omega, test-retest/ICC, CFI, TLI, RMSEA, SRMR, invariance
advisory last: their positions in that order are strictly increasing,
whatever the value lists hold. -/
theorem threshold_comments_fixed_order (nums : NumericSignal) :
    List.Chain' (· < ·) ((threshold_comments nums).map commentIndex) := by
  unfold threshold_comments
  simp only [List.map_append, apply_ite (List.map commentIndex), List.map_cons,
    List.map_nil, commentIndex]
  split_ifs <;> simp [List.chain'_cons]

/-! ### Lemmas: measure detection -/

theorem detect_measures_cons (p : String × MeasureNode) (kb : List (String × MeasureNode))
    (t : List Char) :
    detect_measures (p :: kb) t =
      (match p.2.aliases.find? (fun a => searchPhrase t a) with
       | some a => (⟨p.1, a, p.2.type, p.2.targets⟩ : DetectedMeasure) :: detect_measures kb t
       | none => detect_measures kb t) := by
  simp only [detect_measures, List.filterMap_cons]
  cases h : p.2.aliases.find? (fun a => searchPhrase t a) <;> simp [h]

theorem detect_measures_measure_mem (kb : List (String × MeasureNode)) (t : List Char) :
    ∀ d ∈ detect_measures kb t, d.measure ∈ kb.map Prod.fst := by
  induction kb with
  | nil => intro d hd; simp [detect_measures] at hd
  | cons p kb ih =>
    intro d hd
    rw [detect_measures_cons] at hd
    simp only [List.map_cons, List.mem_cons]
    cases h : p.2.aliases.find? (fun a => searchPhrase t a) with
    | none => rw [h] at hd; exact Or.inr (ih d hd)
    | some a =>
      rw [h] at hd
      rcases List.mem_cons.mp hd with rfl | hd2
      · exact Or.inl rfl
      · exact Or.inr (ih d hd2)

/-- C3: `detect_measures` never emits two entries with the same measure id
(given the distinct keys a Python dict guarantees for the KB), and every
emitted entry records the FIRST alias of its measure that matches the text,
together with that measure's type and targets. -/
theorem detect_measures_no_duplicate_ids (kb : List (String × MeasureNode)) (t : List Char) :
    ((kb.map Prod.fst).Nodup →
      ((detect_measures kb t).map DetectedMeasure.measure).Nodup) ∧
    (∀ d ∈ detect_measures kb t, ∃ node, (d.measure, node) ∈ kb ∧
      node.aliases.find? (fun a => searchPhrase t a) = some d.«alias» ∧
      d.type = node.type ∧ d.targets = node.targets) := by
  constructor
  · intro h
    induction kb with
    | nil => simp [detect_measures]
    | cons p kb ih =>
      simp only [List.map_cons, List.nodup_cons] at h
      rw [detect_measures_cons]
      cases hf : p.2.aliases.find? (fun a => searchPhrase t a) with
      | none => exact ih h.2
      | some a =>
        simp only [List.map_cons, List.nodup_cons]
        refine ⟨?_, ih h.2⟩
        intro hmem
        obtain ⟨d, hd, hdm⟩ := List.mem_map.mp hmem
        exact h.1 (by rw [← hdm]; exact detect_measures_measure_mem kb t d hd)
  · induction kb with
    | nil => intro d hd; simp [detect_measures] at hd
    | cons p kb ih =>
      intro d hd
      rw [detect_measures_cons] at hd
      cases hf : p.2.aliases.find? (fun a => searchPhrase t a) with
      | none =>
        rw [hf] at hd
        obtain ⟨node, hn, rest⟩ := ih d hd
        exact ⟨node, List.mem_cons_of_mem _ hn, rest⟩
      | some a =>
        rw [hf] at hd
        rcases List.mem_cons.mp hd with rfl | hd2
        · exact ⟨p.2, by simp, hf, rfl, rfl⟩
        · obtain ⟨node, hn, rest⟩ := ih d hd2
          exact ⟨node, List.mem_cons_of_mem _ hn, rest⟩

/-- Witness for C3: a text matching an alias of each of two measures yields
duplicate-free measure ids. -/
theorem detect_measures_no_duplicate_ids_witness :
    ((detect_measures kbMeasWitness (chars "We used the BSCS and the Grit-S.")).map
      DetectedMeasure.measure).Nodup :=
  (detect_measures_no_duplicate_ids kbMeasWitness
    (chars "We used the BSCS and the Grit-S.")).1 (by decide)

/-! ### Lemmas: transferring a phrase match across an append -/

theorem wordAt_append (t b : List Char) (k : Nat) :
    wordAt (t ++ b) (t.length + k) = wordAt b k := by
  unfold wordAt
  rw [List.getElem?_append_right (by omega)]
  congr 2
  omega

theorem ciMatchAt_append (t b : List Char) (k : Nat) (p : List Char) :
    ciMatchAt (t ++ b) (t.length + k) p = ciMatchAt b k p := by
  induction p generalizing k with
  | nil => rfl
  | cons c cs ih =>
    simp only [ciMatchAt]
    rw [List.getElem?_append_right (by omega),
      show t.length + k - t.length = k by omega]
    cases hbk : b[k]? with
    | none => rfl
    | some d =>
      rw [show t.length + k + 1 = t.length + (k + 1) by omega, ih]

theorem boundaryAt_append (t b : List Char) (k : Nat) (hk : 1 ≤ k) :
    boundaryAt (t ++ b) (t.length + k) = boundaryAt b k := by
  unfold boundaryAt
  rw [show t.length + k - 1 = t.length + (k - 1) by omega, wordAt_append, wordAt_append]
  rw [decide_eq_true (show t.length + k ≠ 0 by omega),
    decide_eq_true (show k ≠ 0 by omega)]

theorem searchPhrase_append_of_inner (t b p : List Char) (k : Nat) (hk : 1 ≤ k)
    (hkb : k ≤ b.length) (hm : ciMatchAt b k p = true) (hb1 : boundaryAt b k = true)
    (hb2 : boundaryAt b (k + p.length) = true) :
    searchPhrase (t ++ b) p = true := by
  unfold searchPhrase
  rw [List.any_eq_true]
  refine ⟨t.length + k, ?_, ?_⟩
  · rw [List.mem_range, List.length_append]; omega
  · rw [show t.length + k + p.length = t.length + (k + p.length) by omega]
    rw [ciMatchAt_append, boundaryAt_append t b k hk,
      boundaryAt_append t b _ (by omega)]
    simp [hm, hb1, hb2]

/-! ### Lemmas: jingle-jangle -/

theorem mem_ite_singleton {α : Type} [DecidableEq α] (x y : α) (c : Prop) [Decidable c] :
    (x ∈ (if c then [y] else [])) ↔ (c ∧ x = y) := by
  split_ifs with h <;> simp_all

/-- C5: the jangle warning is emitted iff both the self-control and
self-regulation constructs are among the detected constructs and no
boundary/differentiation pattern matches anywhere in the text; appending
the sentence "self-control is distinct from self-regulation" to a text
that otherwise triggers the warning suppresses it. -/
theorem jangle_warning_iff :
    (∀ (t : List Char) (C : List (String × List (List Char))) (M : List DetectedMeasure),
        jangleStr ∈ jingle_jangle t C M ↔
          (hasKey C "self-control" = true ∧ hasKey C "self-regulation" = true ∧
           reBoundarySearch t = false)) ∧
    (∀ (t : List Char) (C : List (String × List (List Char))) (M : List DetectedMeasure),
        hasKey C "self-control" = true → hasKey C "self-regulation" = true →
        reBoundarySearch t = false →
        jangleStr ∈ jingle_jangle t C M ∧
        jangleStr ∉ jingle_jangle
          (t ++ chars " self-control is distinct from self-regulation") C M) := by
  have hje : jangleStr ≠ jingleStr := by decide
  have hme : jangleStr ≠ mixStr := by decide
  have hmem : ∀ (t : List Char) (C : List (String × List (List Char)))
      (M : List DetectedMeasure),
      jangleStr ∈ jingle_jangle t C M ↔
        (hasKey C "self-control" = true ∧ hasKey C "self-regulation" = true ∧
         reBoundarySearch t = false) := by
    intro t C M
    simp [jingle_jangle, List.mem_append, mem_ite_singleton, hje, hme,
      Bool.and_eq_true, Bool.not_eq_true', and_assoc]
  refine ⟨hmem, ?_⟩
  intro t C M h1 h2 h3
  refine ⟨(hmem t C M).mpr ⟨h1, h2, h3⟩, ?_⟩
  intro hmem2
  have hcond := (hmem _ C M).mp hmem2
  have hsp : searchPhrase (t ++ chars " self-control is distinct from self-regulation")
      (chars "distinct from") = true :=
    searchPhrase_append_of_inner t _ _ 17 (by decide) (by decide) (by decide)
      (by decide) (by decide)
  have hb : reBoundarySearch
      (t ++ chars " self-control is distinct from self-regulation") = true := by
    unfold reBoundarySearch
    rw [List.any_eq_true]
    exact ⟨chars "distinct from", by decide, hsp⟩
  rw [hcond.2.2] at hb
  exact Bool.false_ne_true hb

/-- Witness for C5: a concrete text with both constructs and no boundary
phrase triggers the jangle warning, and the appended differentiation
sentence suppresses it. -/
theorem jangle_warning_iff_witness :
    jangleStr ∈ jingle_jangle (chars "We study self-control and self-regulation.")
      consFoundWitness [] ∧
    jangleStr ∉ jingle_jangle
      (chars "We study self-control and self-regulation." ++
       chars " self-control is distinct from self-regulation") consFoundWitness [] :=
  jangle_warning_iff.2 (chars "We study self-control and self-regulation.")
    consFoundWitness [] (by decide) (by decide) (by decide)

/-! ### Lemmas: the regex engine and the numeric patterns -/

theorem starRunC_append (q : Char → Bool) (s : List Char) :
    ∀ x ∈ starRunC q s, x.1 ++ x.2 = s := by
  induction s with
  | nil => simp [starRunC]
  | cons c s ih =>
    intro x hx
    simp only [starRunC] at hx
    split_ifs at hx with hc
    · rcases List.mem_append.mp hx with h | h
      · obtain ⟨x2, hx2, rfl⟩ := List.mem_map.mp h
        simp [ih x2 hx2]
      · simp only [List.mem_singleton] at h
        subst h; rfl
    · simp only [List.mem_singleton] at hx
      subst hx; rfl

theorem runC_append (r : RE) : ∀ (s : List Char) (x : List Char × List Char),
    x ∈ r.runC s → x.1 ++ x.2 = s := by
  induction r with
  | eps =>
    intro s x hx
    simp only [RE.runC, List.mem_singleton] at hx
    subst hx; rfl
  | ch p =>
    intro s x hx
    cases s with
    | nil => simp [RE.runC] at hx
    | cons c s2 =>
      simp only [RE.runC] at hx
      split_ifs at hx with hc
      · simp only [List.mem_singleton] at hx
        subst hx; rfl
      · simp at hx
  | seq a b iha ihb =>
    intro s x hx
    simp only [RE.runC, List.mem_flatMap, List.mem_map] at hx
    obtain ⟨r1, hr1, r2, hr2, rfl⟩ := hx
    have e1 := iha s r1 hr1
    have e2 := ihb r1.2 r2 hr2
    simp only [List.append_assoc, e2, e1]
  | alt a b iha ihb =>
    intro s x hx
    rcases List.mem_append.mp hx with h | h
    · exact iha s x h
    · exact ihb s x h
  | opt a iha =>
    intro s x hx
    rcases List.mem_append.mp hx with h | h
    · exact iha s x h
    · simp only [List.mem_singleton] at h
      subst h; rfl
  | star p =>
    intro s x hx
    exact starRunC_append p s x hx

theorem mustHave_runC {p : Char → Bool} {r : RE} (h : MustHave p r) :
    ∀ (s : List Char) (x : List Char × List Char), x ∈ r.runC s →
      ∃ c ∈ x.1, p c = true := by
  induction h with
  | ch q hq =>
    intro s x hx
    cases s with
    | nil => simp [RE.runC] at hx
    | cons c s2 =>
      simp only [RE.runC] at hx
      split_ifs at hx with hc
      · simp only [List.mem_singleton] at hx
        subst hx
        exact ⟨c, by simp, hq c hc⟩
      · simp at hx
  | seqL a b _ ih =>
    intro s x hx
    simp only [RE.runC, List.mem_flatMap, List.mem_map] at hx
    obtain ⟨r1, hr1, r2, hr2, rfl⟩ := hx
    obtain ⟨c, hc, hpc⟩ := ih s r1 hr1
    exact ⟨c, List.mem_append_left _ hc, hpc⟩
  | seqR a b _ ih =>
    intro s x hx
    simp only [RE.runC, List.mem_flatMap, List.mem_map] at hx
    obtain ⟨r1, hr1, r2, hr2, rfl⟩ := hx
    obtain ⟨c, hc, hpc⟩ := ih r1.2 r2 hr2
    exact ⟨c, List.mem_append_right _ hc, hpc⟩
  | alt a b _ _ iha ihb =>
    intro s x hx
    rcases List.mem_append.mp hx with hm | hm
    · exact iha s x hm
    · exact ihb s x hm

theorem matchCap_none_of_mustHave {p : Char → Bool} {pre : RE} (h : MustHave p pre)
    (num : RE) (s : List Char) (hs : ∀ c ∈ s, p c = false) :
    matchCap pre num s = none := by
  unfold matchCap
  have hnil : ((pre.runC s).flatMap
      (fun r1 => (num.runC r1.2).map (fun r2 => (r2.1, r2.2)))) = [] := by
    rw [List.eq_nil_iff_forall_not_mem]
    intro x hx
    rw [List.mem_flatMap] at hx
    obtain ⟨r1, hr1, _⟩ := hx
    obtain ⟨c, hc, hpc⟩ := mustHave_runC h s r1 hr1
    have hcs : c ∈ s := by
      rw [← runC_append pre s r1 hr1]
      exact List.mem_append_left _ hc
    rw [hs c hcs] at hpc
    exact Bool.false_ne_true hpc
  rw [hnil]
  rfl

theorem findallAux_nil_of_mustHave {p : Char → Bool} {pre : RE} (h : MustHave p pre)
    (num : RE) : ∀ (fuel : Nat) (s : List Char), (∀ c ∈ s, p c = false) →
      findallAux pre num fuel s = [] := by
  intro fuel
  induction fuel with
  | zero => intro s _; rfl
  | succ fuel ih =>
    intro s hs
    have hmc := matchCap_none_of_mustHave h num s hs
    cases s with
    | nil => simp [findallAux, hmc]
    | cons c s2 =>
      simp only [findallAux, hmc]
      exact ih s2 (fun d hd => hs d (List.mem_cons_of_mem c hd))

theorem mustHave_OPM : MustHave opP OPM :=
  MustHave.alt _ _
    (MustHave.ch _ (by intro c hc; simp [opP, hc]))
    (MustHave.ch _ (by intro c hc; simp [opP, hc]))

theorem mustHave_CFI_pre : MustHave opP CFI_pre :=
  MustHave.seqR _ _ (MustHave.seqR _ _ (MustHave.seqL _ _ mustHave_OPM))

theorem mustHave_TLI_pre : MustHave opP TLI_pre :=
  MustHave.seqR _ _ (MustHave.seqR _ _ (MustHave.seqL _ _ mustHave_OPM))

theorem mustHave_RMSEA_pre : MustHave opP RMSEA_pre :=
  MustHave.seqR _ _ (MustHave.seqR _ _ (MustHave.seqL _ _ mustHave_OPM))

theorem mustHave_SRMR_pre : MustHave opP SRMR_pre :=
  MustHave.seqR _ _ (MustHave.seqR _ _ (MustHave.seqL _ _ mustHave_OPM))

/-- C1 counterexample: on `"CFI 0.95"` the code's `extract_numbers` finds
no CFI value (its operator is mandatory), while the claimed shape (optional
operator for every statistic) finds 0.95 — so `extract_numbers` does not
match a statistic mention with an optional label/operator for every
statistic. -/
theorem extract_numbers_claim_shape_cex :
    (extract_numbers (chars "CFI 0.95")).CFI = [] ∧
    (extract_numbers_claimed (chars "CFI 0.95")).CFI = [95/100] ∧
    extract_numbers (chars "CFI 0.95") ≠ extract_numbers_claimed (chars "CFI 0.95") := by
  have h1 : findall CFI_pre NUM0 (chars "CFI 0.95") = [] := by decide
  have h2 : findall (seqs [lit (chars "CFI"), WS, OPS, WS]) NUM01 (chars "CFI 0.95")
      = [chars "0.95"] := by decide
  have h3 : parseDec (chars "0.95") = 95/100 := by
    rw [show parseDec (chars "0.95")
        = ((0 : Nat) : ℚ) + ((95 : Nat) : ℚ) / (10 : ℚ) ^ (2 : Nat) from rfl]
    norm_num
  refine ⟨?_, ?_, ?_⟩
  · simp [extract_numbers, h1]
  · simp [extract_numbers_claimed, h2, h3]
  · intro he
    have : (extract_numbers (chars "CFI 0.95")).CFI
        = (extract_numbers_claimed (chars "CFI 0.95")).CFI := by rw [he]
    rw [show (extract_numbers (chars "CFI 0.95")).CFI = [] by simp [extract_numbers, h1],
      show (extract_numbers_claimed (chars "CFI 0.95")).CFI = [95/100] by
        simp [extract_numbers_claimed, h2, h3]] at this
    simp at this

/-- C1 amended: the reliability patterns (alpha, omega, test-retest/ICC)
take an optional `=`/`:` and a decimal of shape `0.` plus at least two
digits or `1` optionally followed by `.0+`; the fit-index patterns (CFI,
TLI, RMSEA, SRMR) require the `=`/`:` operator — on any text containing
neither `=` nor `:` they extract nothing — and accept only the `0.`-shape
decimal, so `CFI = 1` is not captured; all matches are collected as floats
in order of appearance. -/
theorem extract_numbers_amended :
    (∀ t : List Char, (∀ c ∈ t, c ≠ '=' ∧ c ≠ ':') →
        (extract_numbers t).CFI = [] ∧ (extract_numbers t).TLI = [] ∧
        (extract_numbers t).RMSEA = [] ∧ (extract_numbers t).SRMR = []) ∧
    (extract_numbers (chars "alpha 0.75")).alpha = [75/100] ∧
    (extract_numbers (chars "alpha = 1")).alpha = [1] ∧
    (extract_numbers (chars "omega: 0.80")).omega = [80/100] ∧
    (extract_numbers (chars "CFI = 1")).CFI = [] ∧
    (extract_numbers (chars "CFI = 0.95 and CFI: 0.91")).CFI = [95/100, 91/100] := by
  constructor
  · intro t ht
    have hs : ∀ c ∈ t, opP c = false := by
      intro c hc
      have h2 := ht c hc
      simp only [opP, Bool.or_eq_false_iff, beq_eq_false_iff_ne]
      exact h2
    refine ⟨?_, ?_, ?_, ?_⟩ <;>
      · simp only [extract_numbers, findall]
        rw [findallAux_nil_of_mustHave (by first
              | exact mustHave_CFI_pre
              | exact mustHave_TLI_pre
              | exact mustHave_RMSEA_pre
              | exact mustHave_SRMR_pre) _ _ t hs]
        rfl
  · refine ⟨?_, ?_, ?_, ?_, ?_⟩
    · rw [show (extract_numbers (chars "alpha 0.75")).alpha
          = (findall ALPHA_pre NUM01 (chars "alpha 0.75")).map parseDec from rfl,
        show findall ALPHA_pre NUM01 (chars "alpha 0.75") = [chars "0.75"] from by decide]
      rw [List.map_cons, List.map_nil,
        show parseDec (chars "0.75")
          = ((0 : Nat) : ℚ) + ((75 : Nat) : ℚ) / (10 : ℚ) ^ (2 : Nat) from rfl]
      norm_num
    · rw [show (extract_numbers (chars "alpha = 1")).alpha
          = (findall ALPHA_pre NUM01 (chars "alpha = 1")).map parseDec from rfl,
        show findall ALPHA_pre NUM01 (chars "alpha = 1") = [chars "1"] from by decide]
      rw [List.map_cons, List.map_nil,
        show parseDec (chars "1")
          = ((1 : Nat) : ℚ) + ((0 : Nat) : ℚ) / (10 : ℚ) ^ (0 : Nat) from rfl]
      norm_num
    · rw [show (extract_numbers (chars "omega: 0.80")).omega
          = (findall OMEGA_pre NUM01 (chars "omega: 0.80")).map parseDec from rfl,
        show findall OMEGA_pre NUM01 (chars "omega: 0.80") = [chars "0.80"] from by decide]
      rw [List.map_cons, List.map_nil,
        show parseDec (chars "0.80")
          = ((0 : Nat) : ℚ) + ((80 : Nat) : ℚ) / (10 : ℚ) ^ (2 : Nat) from rfl]
      norm_num
    · rw [show (extract_numbers (chars "CFI = 1")).CFI
          = (findall CFI_pre NUM0 (chars "CFI = 1")).map parseDec from rfl,
        show findall CFI_pre NUM0 (chars "CFI = 1") = [] from by decide]
      rfl
    · rw [show (extract_numbers (chars "CFI = 0.95 and CFI: 0.91")).CFI
          = (findall CFI_pre NUM0 (chars "CFI = 0.95 and CFI: 0.91")).map parseDec from rfl,
        show findall CFI_pre NUM0 (chars "CFI = 0.95 and CFI: 0.91")
          = [chars "0.95", chars "0.91"] from by decide]
      rw [List.map_cons, List.map_cons, List.map_nil,
        show parseDec (chars "0.95")
          = ((0 : Nat) : ℚ) + ((95 : Nat) : ℚ) / (10 : ℚ) ^ (2 : Nat) from rfl,
        show parseDec (chars "0.91")
          = ((0 : Nat) : ℚ) + ((91 : Nat) : ℚ) / (10 : ℚ) ^ (2 : Nat) from rfl]
      norm_num

/-- Witness for C1 at a concrete operator-free text. -/
theorem extract_numbers_amended_witness :
    (extract_numbers (chars "CFI 0.95")).RMSEA = [] :=
  (extract_numbers_amended.1 (chars "CFI 0.95") (by decide)).2.2.1

/-! ### Lemmas: sectionizer keys -/

theorem appendLine_keys (secs : List (List Char × List (List Char))) (k line : List Char) :
    (appendLine secs k line).map Prod.fst = secs.map Prod.fst := by
  unfold appendLine
  rw [List.map_map]
  exact List.map_congr_left (fun p _ => by dsimp; split <;> rfl)

theorem setdefault_keys_sub (secs : List (List Char × List (List Char))) (k : List Char) :
    ∀ x ∈ (setdefault secs k).map Prod.fst, x ∈ secs.map Prod.fst ∨ x = k := by
  unfold setdefault
  split
  · intro x hx; exact Or.inl hx
  · intro x hx
    rw [List.map_append] at hx
    rcases List.mem_append.mp hx with h | h
    · exact Or.inl h
    · simp at h; exact Or.inr h

theorem sectionizeAux_keys :
    ∀ (lines : List (List Char)) (cur : List Char)
      (secs : List (List Char × List (List Char))),
      ∀ x ∈ (sectionizeAux lines cur secs).map Prod.fst,
        x ∈ secs.map Prod.fst ∨
        ∃ line ∈ lines, ∃ s, sectionHeadSearch (pyStrip line) = some s ∧ x = titleWord s := by
  intro lines
  induction lines with
  | nil =>
    intro cur secs x hx
    exact Or.inl hx
  | cons line rest ih =>
    intro cur secs x hx
    cases hh : sectionHeadSearch (pyStrip line) with
    | some s =>
      simp only [sectionizeAux, hh] at hx
      rcases ih _ _ x hx with hin | ⟨l2, hl2, s2, hs2, hx2⟩
      · rw [appendLine_keys] at hin
        rcases setdefault_keys_sub secs (titleWord s) x hin with h | h
        · exact Or.inl h
        · exact Or.inr ⟨line, by simp, s, hh, h⟩
      · exact Or.inr ⟨l2, by simp [hl2], s2, hs2, hx2⟩
    | none =>
      simp only [sectionizeAux, hh] at hx
      rcases ih _ _ x hx with hin | ⟨l2, hl2, s2, hs2, hx2⟩
      · rw [appendLine_keys] at hin
        exact Or.inl hin
      · exact Or.inr ⟨l2, by simp [hl2], s2, hs2, hx2⟩

theorem sectionize_keys (t : List Char) :
    ∀ k ∈ (sectionize t).map Prod.fst, k = chars "Full Text" ∨
      ∃ line ∈ pySplitlines t, ∃ s,
        sectionHeadSearch (pyStrip line) = some s ∧ k = titleWord s := by
  intro k hk
  unfold sectionize at hk
  rw [List.map_map] at hk
  rw [show ((fun p : List Char × List Char => p.1) ∘
      (fun p : List Char × List (List Char) => (p.1, pyStrip (joinNl p.2))))
      = Prod.fst from rfl] at hk
  rcases sectionizeAux_keys (pySplitlines t) (chars "Full Text")
      [(chars "Full Text", [])] k hk with h | h
  · simp at h
    exact Or.inl h
  · exact Or.inr h

/-- C4 counterexample: the texts `"Method\nScale A"` and
`"Methods\nScale A"` put their lines under DIFFERENT section keys
("Method" vs "Methods"), so singular and plural are not folded to one
section name. -/
theorem sectionize_plural_not_folded_cex :
    (sectionize (chars "Method\nScale A")).map Prod.fst
      = [chars "Full Text", chars "Method"] ∧
    (sectionize (chars "Methods\nScale A")).map Prod.fst
      = [chars "Full Text", chars "Methods"] ∧
    getSec (sectionize (chars "Method\nScale A")) (chars "Method")
      = chars "Method\nScale A" ∧
    getSec (sectionize (chars "Methods\nScale A")) (chars "Methods")
      = chars "Methods\nScale A" ∧
    chars "Method" ≠ chars "Methods" := by decide

/-- C4 amended: every non-sentinel section key is the title-cased text of a
heading match (`group(0)`, which keeps any trailing `s`), so matching is
case-insensitive and the key case-normalized, but singular and plural
headings yield distinct keys ("Method" vs "Methods"). -/
theorem sectionize_title_case_amended :
    (∀ (t : List Char), ∀ k ∈ (sectionize t).map Prod.fst, k = chars "Full Text" ∨
        ∃ line ∈ pySplitlines t, ∃ s,
          sectionHeadSearch (pyStrip line) = some s ∧ k = titleWord s) ∧
    (sectionize (chars "METHODS\nA")).map Prod.fst
      = [chars "Full Text", chars "Methods"] ∧
    (sectionize (chars "methods\nB")).map Prod.fst
      = [chars "Full Text", chars "Methods"] ∧
    (sectionize (chars "Method\nC")).map Prod.fst
      = [chars "Full Text", chars "Method"] ∧
    chars "Method" ≠ chars "Methods" :=
  ⟨sectionize_keys, by decide, by decide, by decide, by decide⟩

/-- Witness for C4 at a concrete text and key. -/
theorem sectionize_title_case_amended_witness :
    chars "Results" = chars "Full Text" ∨
      ∃ line ∈ pySplitlines (chars "Results\nD"), ∃ s,
        sectionHeadSearch (pyStrip line) = some s ∧ chars "Results" = titleWord s :=
  sectionize_title_case_amended.1 (chars "Results\nD") (chars "Results") (by decide)

/-! ### Lemmas: the empty-focus pipeline -/

theorem wordAt_spaces6 (m : Nat) : wordAt spaces6 m = false := by
  by_cases h6 : m < 6
  · interval_cases m <;> rfl
  · unfold wordAt
    rw [List.getElem?_eq_none (by simp [spaces6]; omega)]

theorem boundaryAt_spaces6 (j : Nat) : boundaryAt spaces6 j = false := by
  unfold boundaryAt
  rw [wordAt_spaces6, wordAt_spaces6]
  simp

theorem searchPhrase_spaces6 (p : List Char) : searchPhrase spaces6 p = false := by
  unfold searchPhrase
  rw [List.any_eq_false]
  intro i _
  rw [boundaryAt_spaces6]
  simp

theorem detect_constructs_spaces6 (kb : List (String × ConstructNode)) :
    detect_constructs kb spaces6 = [] := by
  induction kb with
  | nil => rfl
  | cons p kb ih =>
    simp only [detect_constructs, List.filterMap_cons] at ih ⊢
    rw [show ((p.2.canonical_labels ++ p.2.near_neighbors).filter
        (fun lbl => searchPhrase spaces6 lbl)) = [] from
      List.filter_eq_nil_iff.mpr (fun a _ => by simp [searchPhrase_spaces6])]
    simpa using ih

theorem detect_measures_spaces6 (kb : List (String × MeasureNode)) :
    detect_measures kb spaces6 = [] := by
  induction kb with
  | nil => rfl
  | cons p kb ih =>
    rw [detect_measures_cons,
      show p.2.aliases.find? (fun a => searchPhrase spaces6 a) = none from
        List.find?_eq_none.mpr (fun a _ => by simp [searchPhrase_spaces6])]
    exact ih

theorem analyze_of_focus_spaces6 (kbC : List (String × ConstructNode))
    (kbM : List (String × MeasureNode)) (t : List Char) (h : focusOf t = spaces6) :
    analyze kbC kbM t = emptyReport := by
  simp only [analyze]
  rw [h, detect_constructs_spaces6, detect_measures_spaces6]
  rfl

/-- C7: on empty input the pipeline produces the fully-formed empty report
(every list empty, the invariance flag false) for every knowledge base, and
the report serializes to the empty-report JSON. -/
theorem analyze_empty_input (kbC : List (String × ConstructNode))
    (kbM : List (String × MeasureNode)) :
    analyze kbC kbM (chars "") = emptyReport ∧
    Report.toJson (analyze kbC kbM (chars "")) = emptyReportJson := by
  have hmain := analyze_of_focus_spaces6 kbC kbM (chars "") rfl
  exact ⟨hmain, by rw [hmain]; rfl⟩

/-! ### Lemmas: documents without headings -/

theorem sectionizeAux_no_heads (lines : List (List Char))
    (h : ∀ l ∈ lines, sectionHeadSearch (pyStrip l) = none) :
    ∀ acc, sectionizeAux lines (chars "Full Text") [(chars "Full Text", acc)]
      = [(chars "Full Text", acc ++ lines)] := by
  induction lines with
  | nil => intro acc; simp [sectionizeAux]
  | cons line rest ih =>
    intro acc
    simp only [sectionizeAux, h line (by simp)]
    rw [show appendLine [(chars "Full Text", acc)] (chars "Full Text") line
        = [(chars "Full Text", acc ++ [line])] from by simp [appendLine]]
    rw [ih (fun l hl => h l (by simp [hl])) (acc ++ [line])]
    simp

theorem sectionize_no_heads (t : List Char)
    (h : ∀ l ∈ pySplitlines t, sectionHeadSearch (pyStrip l) = none) :
    sectionize t = [(chars "Full Text", pyStrip (joinNl (pySplitlines t)))] := by
  unfold sectionize
  rw [sectionizeAux_no_heads (pySplitlines t) h []]
  simp

/-- C9: if no line of the text contains a section-heading keyword, all
content stays under the "Full Text" sentinel, the focus text is
whitespace-only (six spaces), and the whole analysis comes back empty: the
document's content is never analyzed. -/
theorem analyze_no_headings_unanalyzed (kbC : List (String × ConstructNode))
    (kbM : List (String × MeasureNode)) (t : List Char)
    (h : ∀ line ∈ pySplitlines t, sectionHeadSearch (pyStrip line) = none) :
    sectionize t = [(chars "Full Text", pyStrip (joinNl (pySplitlines t)))] ∧
    focusOf t = spaces6 ∧
    analyze kbC kbM t = emptyReport := by
  have h1 := sectionize_no_heads t h
  have h2 : focusOf t = spaces6 := by
    simp only [focusOf]
    rw [h1]
    rfl
  exact ⟨h1, h2, analyze_of_focus_spaces6 kbC kbM t h2⟩

/-- Witness for C9 on a concrete heading-free document. -/
theorem analyze_no_headings_unanalyzed_witness :
    analyze [] [] (chars "hello world\ngoodbye") = emptyReport :=
  (analyze_no_headings_unanalyzed [] [] (chars "hello world\ngoodbye") (by decide)).2.2

/-- C8: the pipeline is a pure function of the input text and the KB: two
runs on equal inputs produce equal reports with byte-identical
serializations. -/
theorem analyze_deterministic (kbC : List (String × ConstructNode))
    (kbM : List (String × MeasureNode)) (t1 t2 : List Char) (h : t1 = t2) :
    analyze kbC kbM t1 = analyze kbC kbM t2 ∧
    Report.toJson (analyze kbC kbM t1) = Report.toJson (analyze kbC kbM t2) := by
  subst h
  exact ⟨rfl, rfl⟩

/-- Witness for C8 at a concrete input. -/
theorem analyze_deterministic_witness :
    analyze [] [] (chars "x") = analyze [] [] (chars "x") :=
  (analyze_deterministic [] [] (chars "x") (chars "x") rfl).1

end ConstructHealth
